import Mathlib

/-!
Shallow embedding of the libchess core (src/piece.rs, src/move_validators.rs,
src/game_manager.rs).  Machine integers (`u8`) are modelled as `Nat`; every
subtraction in the source is of the form `max - min`, which cannot underflow,
and a separate checked-subtraction variant (`get_direction_checked`) makes
that explicit.  Fallible operations (Rust `unwrap`, i.e. potential panics) are
modelled with `Option`: `none` stands for a panic.
-/

/-- Embeds `Player` from src/piece.rs. -/
inductive Player
  | White
  | Black
  deriving DecidableEq, Repr

/-- Embeds `MAX_ROW` from src/piece.rs. -/
def MAX_ROW : Nat := 8

/-- Embeds `MAX_COLUMN` from src/piece.rs. -/
def MAX_COLUMN : Nat := MAX_ROW

/-- Embeds `Kind` from src/piece.rs. -/
inductive Kind
  | Queen
  | King
  | Pawn
  | Bishop
  | Knight
  | Rook
  deriving DecidableEq, Repr

/-- Embeds `KnightDirection` from src/piece.rs. -/
inductive KnightDirection
  | UpLeft
  | UpRight
  | RightUp
  | RightDown
  | DownLeft
  | DownRight
  | LeftUp
  | LeftDown
  deriving DecidableEq, Repr

/-- Embeds `Direction` from src/piece.rs. -/
inductive Direction
  | Up : Nat → Direction
  | Left : Nat → Direction
  | Down : Nat → Direction
  | Right : Nat → Direction
  | UpLeft : Nat → Direction
  | UpRight : Nat → Direction
  | DownLeft : Nat → Direction
  | DownRight : Nat → Direction
  | Knight : KnightDirection → Direction
  deriving DecidableEq, Repr

/-- Embeds `Position` from src/piece.rs. -/
structure Position where
  row : Nat
  column : Nat
  deriving DecidableEq, Repr

/-- Embeds `Piece` from src/piece.rs. -/
structure Piece where
  kind : Kind
  row : Nat
  column : Nat
  deriving DecidableEq, Repr

/-- Embeds `Position::from_piece`. -/
def Position.from_piece (piece : Piece) : Position :=
  { row := piece.row, column := piece.column }

/-- Embeds `Position::get_direction` from src/piece.rs (lines 61-104).
The Rust `match (a, b)` on two booleans is written as nested `if`s with the
same case order. -/
def get_direction (self other : Position) : Option Direction :=
  let rmax := max self.row other.row
  let rmin := min self.row other.row
  let cmax := max self.column other.column
  let cmin := min self.column other.column
  let x := rmax - rmin
  let y := cmax - cmin
  if self.row = other.row then
    if other.column < self.column then some (Direction.Left y)
    else some (Direction.Right y)
  else if self.column = other.column then
    if other.row < self.row then some (Direction.Down x)
    else some (Direction.Up x)
  else if x = y then
    if other.row < self.row then
      if other.column < self.column then some (Direction.DownLeft x)
      else some (Direction.DownRight x)
    else
      if other.column < self.column then some (Direction.UpLeft x)
      else some (Direction.UpRight x)
  else if x = 2 ∧ y = 1 then
    if other.row < self.row then
      if other.column < self.column then some (Direction.Knight KnightDirection.DownLeft)
      else some (Direction.Knight KnightDirection.DownRight)
    else
      if other.column < self.column then some (Direction.Knight KnightDirection.UpLeft)
      else some (Direction.Knight KnightDirection.UpRight)
  else if x = 1 ∧ y = 2 then
    if other.column < self.column then
      if other.row < self.row then some (Direction.Knight KnightDirection.LeftDown)
      else some (Direction.Knight KnightDirection.LeftUp)
    else
      if other.row < self.row then some (Direction.Knight KnightDirection.RightDown)
      else some (Direction.Knight KnightDirection.RightUp)
  else
    none

/-- Checked subtraction: `none` models a `u8` subtraction underflow (a panic in
debug builds). -/
def checkedSub (a b : Nat) : Option Nat :=
  if b ≤ a then some (a - b) else none

/-- `Position::get_direction` with the two subtractions `rmax - rmin` and
`cmax - cmin` performed by checked subtraction: the outer `none` models an
underflow panic; otherwise the body is identical to `get_direction`. -/
def get_direction_checked (self other : Position) : Option (Option Direction) :=
  match checkedSub (max self.row other.row) (min self.row other.row),
        checkedSub (max self.column other.column) (min self.column other.column) with
  | some x, some y =>
    some (
      if self.row = other.row then
        if other.column < self.column then some (Direction.Left y)
        else some (Direction.Right y)
      else if self.column = other.column then
        if other.row < self.row then some (Direction.Down x)
        else some (Direction.Up x)
      else if x = y then
        if other.row < self.row then
          if other.column < self.column then some (Direction.DownLeft x)
          else some (Direction.DownRight x)
        else
          if other.column < self.column then some (Direction.UpLeft x)
          else some (Direction.UpRight x)
      else if x = 2 ∧ y = 1 then
        if other.row < self.row then
          if other.column < self.column then some (Direction.Knight KnightDirection.DownLeft)
          else some (Direction.Knight KnightDirection.DownRight)
        else
          if other.column < self.column then some (Direction.Knight KnightDirection.UpLeft)
          else some (Direction.Knight KnightDirection.UpRight)
      else if x = 1 ∧ y = 2 then
        if other.column < self.column then
          if other.row < self.row then some (Direction.Knight KnightDirection.LeftDown)
          else some (Direction.Knight KnightDirection.LeftUp)
        else
          if other.row < self.row then some (Direction.Knight KnightDirection.RightDown)
          else some (Direction.Knight KnightDirection.RightUp)
      else
        none)
  | _, _ => none

/-- Embeds `is_pawn_in_start_pos` from src/move_validators.rs (lines 3-8). -/
def is_pawn_in_start_pos (piece : Piece) (turn : Player) : Bool :=
  match turn with
  | Player.Black => piece.row == MAX_ROW - 2
  | Player.White => piece.row == 1

/-- Embeds `is_valid_pawn_move` from src/move_validators.rs (lines 10-37). -/
def is_valid_pawn_move (piece : Piece) (dest : Position) (turn : Player) : Bool :=
  let start := Position.from_piece piece
  let direction := get_direction start dest
  let in_start_pos := is_pawn_in_start_pos piece turn
  match direction with
  | none => false
  | some d =>
    match turn, d with
    | Player.White, Direction.Up up => (in_start_pos && decide (up ≤ 2)) || up == 1
    | Player.White, Direction.UpLeft dir => dir == 1
    | Player.White, Direction.UpRight dir => dir == 1
    | Player.Black, Direction.Down down => (in_start_pos && decide (down ≤ 2)) || down == 1
    | Player.Black, Direction.DownLeft dir => dir == 1
    | Player.Black, Direction.DownRight dir => dir == 1
    | _, _ => false

/-- Embeds `is_valid_bishop_move` from src/move_validators.rs. -/
def is_valid_bishop_move (piece : Piece) (dest : Position) : Bool :=
  match get_direction (Position.from_piece piece) dest with
  | some (Direction.DownLeft _) => true
  | some (Direction.DownRight _) => true
  | some (Direction.UpLeft _) => true
  | some (Direction.UpRight _) => true
  | _ => false

/-- Embeds `is_valid_rook_move` from src/move_validators.rs. -/
def is_valid_rook_move (piece : Piece) (dest : Position) : Bool :=
  match get_direction (Position.from_piece piece) dest with
  | some (Direction.Up _) => true
  | some (Direction.Down _) => true
  | some (Direction.Left _) => true
  | some (Direction.Right _) => true
  | _ => false

/-- Embeds `is_valid_king_move` from src/move_validators.rs. -/
def is_valid_king_move (piece : Piece) (dest : Position) : Bool :=
  match get_direction (Position.from_piece piece) dest with
  | some (Direction.Down d) => d == 1
  | some (Direction.DownLeft d) => d == 1
  | some (Direction.DownRight d) => d == 1
  | some (Direction.Left d) => d == 1
  | some (Direction.Right d) => d == 1
  | some (Direction.Up d) => d == 1
  | some (Direction.UpLeft d) => d == 1
  | some (Direction.UpRight d) => d == 1
  | _ => false

/-- Embeds `is_valid_queen_move` from src/move_validators.rs. -/
def is_valid_queen_move (piece : Piece) (dest : Position) : Bool :=
  match get_direction (Position.from_piece piece) dest with
  | some (Direction.Down _) => true
  | some (Direction.DownLeft _) => true
  | some (Direction.DownRight _) => true
  | some (Direction.Left _) => true
  | some (Direction.Right _) => true
  | some (Direction.Up _) => true
  | some (Direction.UpLeft _) => true
  | some (Direction.UpRight _) => true
  | _ => false

/-- Embeds `is_valid_knight_move` from src/move_validators.rs. -/
def is_valid_knight_move (piece : Piece) (dest : Position) : Bool :=
  match get_direction (Position.from_piece piece) dest with
  | some (Direction.Knight _) => true
  | _ => false

/-- Embeds `is_valid_move` from src/move_validators.rs (lines 109-118). -/
def is_valid_move (piece : Piece) (dest : Position) (turn : Player) : Bool :=
  match piece.kind with
  | Kind.King => is_valid_king_move piece dest
  | Kind.Queen => is_valid_queen_move piece dest
  | Kind.Knight => is_valid_knight_move piece dest
  | Kind.Bishop => is_valid_bishop_move piece dest
  | Kind.Rook => is_valid_rook_move piece dest
  | Kind.Pawn => is_valid_pawn_move piece dest turn

/-- Embeds `MoveErr` from src/game_manager.rs. -/
inductive MoveErr
  | SamePosition
  | FriendlyFire
  | InvalidMove
  | PieceBlocking
  deriving DecidableEq, Repr

/-- Embeds `GameManager` from src/game_manager.rs: the two piece collections
(`Vec<Piece>` as `List Piece`) and the turn flag. -/
structure GameManager where
  whites : List Piece
  blacks : List Piece
  turn : Player
  deriving DecidableEq, Repr

/-- Embeds `is_friendly_fire` from src/game_manager.rs (lines 146-157). -/
def is_friendly_fire (gm : GameManager) (dest : Position) : Bool :=
  let pieces := match gm.turn with
    | Player.Black => gm.blacks
    | Player.White => gm.whites
  pieces.any (fun piece => piece.row == dest.row && piece.column == dest.column)

/-- Embeds the `is_blocking` match inside `GameManager::is_piece_blocking`
(src/game_manager.rs lines 127-137): same ray constructor with strictly
smaller distance. -/
def same_ray_shorter (dir direction : Direction) : Bool :=
  match dir, direction with
  | Direction.Up a, Direction.Up b => decide (a < b)
  | Direction.Left a, Direction.Left b => decide (a < b)
  | Direction.Down a, Direction.Down b => decide (a < b)
  | Direction.Right a, Direction.Right b => decide (a < b)
  | Direction.UpLeft a, Direction.UpLeft b => decide (a < b)
  | Direction.UpRight a, Direction.UpRight b => decide (a < b)
  | Direction.DownLeft a, Direction.DownLeft b => decide (a < b)
  | Direction.DownRight a, Direction.DownRight b => decide (a < b)
  | _, _ => false

/-- The piece-scanning loop of `GameManager::is_piece_blocking`
(src/game_manager.rs lines 120-141).  `none` models the panic of the inner
`.unwrap()` on `get_direction` (line 126). -/
def block_loop (piece : Piece) (turn : Player) (direction : Direction) :
    List Position → Option Bool
  | [] => some false
  | pos :: rest =>
    if pos.row == piece.row && pos.column == piece.column then
      block_loop piece turn direction rest
    else if !is_valid_move piece pos turn then
      block_loop piece turn direction rest
    else
      match get_direction (Position.from_piece piece) pos with
      | none => none
      | some dir =>
        if same_ray_shorter dir direction then some true
        else block_loop piece turn direction rest

/-- Embeds `GameManager::is_piece_blocking` (src/game_manager.rs lines
113-143).  The outer `none` models the panic of `.unwrap()` on the
classification of the destination (line 119). -/
def is_piece_blocking (gm : GameManager) (piece : Piece) (dest : Position) :
    Option Bool :=
  let positions := (gm.whites ++ gm.blacks).map Position.from_piece
  match get_direction (Position.from_piece piece) dest with
  | none => none
  | some direction => block_loop piece gm.turn direction positions

/-- Embeds `GameManager::is_valid_move` (src/game_manager.rs lines 39-59).
The unused local `_positions` of the source is omitted (it has no effect).
The outer `none` models a panic propagated from `is_piece_blocking`; the
inner `Option MoveErr` is the return value of the source (`None` = legal). -/
def gm_is_valid_move (gm : GameManager) (piece : Piece) (dest : Position) :
    Option (Option MoveErr) :=
  if piece.row == dest.row && piece.column == dest.column then
    some (some MoveErr.SamePosition)
  else if is_friendly_fire gm dest then
    some (some MoveErr.FriendlyFire)
  else if !is_valid_move piece dest gm.turn then
    some (some MoveErr.InvalidMove)
  else
    match is_piece_blocking gm piece dest with
    | none => none
    | some true => some (some MoveErr.PieceBlocking)
    | some false => some none

/-- The relocation loop of `GameManager::move_piece` (src/game_manager.rs
lines 69-76): walks the collection of the moving side, skips a piece `p` with
`p.row != piece.row && p.column == piece.column`, and relocates the first
non-skipped piece, reporting whether one was found. -/
def move_loop (piece : Piece) (pos : Position) : List Piece → (List Piece × Bool)
  | [] => ([], false)
  | p :: rest =>
    if p.row != piece.row && p.column == piece.column then
      let r := move_loop piece pos rest
      (p :: r.1, r.2)
    else
      ({ p with row := pos.row, column := pos.column } :: rest, true)

/-- Embeds `GameManager::move_piece` (src/game_manager.rs lines 61-78) with
explicit state passing: the result pairs the `Result<(), MoveErr>` with the
updated board.  `none` models a panic propagated from validation. -/
def move_piece (gm : GameManager) (piece : Piece) (pos : Position) :
    Option (Except MoveErr Unit × GameManager) :=
  match gm_is_valid_move gm piece pos with
  | none => none
  | some (some err) => some (Except.error err, gm)
  | some none =>
    match gm.turn with
    | Player.Black =>
      let r := move_loop piece pos gm.blacks
      some (if r.2 then Except.ok () else Except.error MoveErr.InvalidMove,
            { gm with blacks := r.1 })
    | Player.White =>
      let r := move_loop piece pos gm.whites
      some (if r.2 then Except.ok () else Except.error MoveErr.InvalidMove,
            { gm with whites := r.1 })

/-- The inner `for ri in 0..MAX_ROW` loop of `GameManager::move_suggestion`
(src/game_manager.rs lines 83-88) for one column `ci`: collects the squares
validation accepts, in row order.  `none` models a propagated panic. -/
def suggest_ri_loop (gm : GameManager) (piece : Piece) (ci : Nat) :
    List Nat → Option (List Position)
  | [] => some []
  | ri :: rest =>
    match gm_is_valid_move gm piece { row := ri, column := ci } with
    | none => none
    | some none =>
      (suggest_ri_loop gm piece ci rest).map
        (fun l => { row := ri, column := ci } :: l)
    | some (some _) => suggest_ri_loop gm piece ci rest

/-- The keep-predicate of the pawn capture-only filter in
`GameManager::move_suggestion` (src/game_manager.rs lines 92-105): keep a
square on the column of the pawn itself, otherwise keep it only if an opposing piece
occupies it. -/
def pawn_keep (gm : GameManager) (piece : Piece) (pos : Position) : Bool :=
  pos.column == piece.column
  || (match gm.turn with
      | Player.Black => gm.whites
      | Player.White => gm.blacks).any
        (fun p => p.row == pos.row && p.column == pos.column)

/-- The pawn capture-only filter of `GameManager::move_suggestion`
(src/game_manager.rs lines 89-108). -/
def pawn_filter (gm : GameManager) (piece : Piece) (positions : List Position) :
    List Position :=
  positions.filter (pawn_keep gm piece)

/-- The outer `for ci in 0..MAX_COLUMN` loop of `GameManager::move_suggestion`
(src/game_manager.rs lines 82-109): per column, append the accepted squares,
then (for a Pawn) re-filter the whole accumulator. -/
def suggest_ci_loop (gm : GameManager) (piece : Piece) :
    List Position → List Nat → Option (List Position)
  | acc, [] => some acc
  | acc, ci :: rest =>
    match suggest_ri_loop gm piece ci (List.range MAX_ROW) with
    | none => none
    | some newPos =>
      let acc2 := acc ++ newPos
      let acc3 := if piece.kind == Kind.Pawn then pawn_filter gm piece acc2 else acc2
      suggest_ci_loop gm piece acc3 rest

/-- Embeds `GameManager::move_suggestion` (src/game_manager.rs lines 80-112).
`none` models a propagated panic. -/
def move_suggestion (gm : GameManager) (piece : Piece) : Option (List Position) :=
  suggest_ci_loop gm piece [] (List.range MAX_COLUMN)

/-- Embeds `GameManager::swap_turn` (src/game_manager.rs lines 32-37). -/
def swap_turn (gm : GameManager) : GameManager :=
  { gm with turn := match gm.turn with
      | Player.Black => Player.White
      | Player.White => Player.Black }

/-!  Spec-side helper definitions, used to state the claims in the vocabulary
of the spec (direction class, ray distance, knight shape, pawn shape). -/

/-- Direction of a classification as the spec describes it, forgetting the
distance and the knight sub-variant. -/
inductive RayClass
  | up
  | down
  | left
  | right
  | upLeft
  | upRight
  | downLeft
  | downRight
  | knightShape
  deriving DecidableEq, Repr

/-- Direction class of a classification value. -/
def dir_class : Direction → RayClass
  | Direction.Up _ => RayClass.up
  | Direction.Left _ => RayClass.left
  | Direction.Down _ => RayClass.down
  | Direction.Right _ => RayClass.right
  | Direction.UpLeft _ => RayClass.upLeft
  | Direction.UpRight _ => RayClass.upRight
  | Direction.DownLeft _ => RayClass.downLeft
  | Direction.DownRight _ => RayClass.downRight
  | Direction.Knight _ => RayClass.knightShape

/-- Distance carried by a ray classification (0 for the knight-shape marker,
which carries no distance). -/
def ray_dist : Direction → Nat
  | Direction.Up a => a
  | Direction.Left a => a
  | Direction.Down a => a
  | Direction.Right a => a
  | Direction.UpLeft a => a
  | Direction.UpRight a => a
  | Direction.DownLeft a => a
  | Direction.DownRight a => a
  | Direction.Knight _ => 0

/-- Whether a classification result is the knight-shape marker. -/
def is_knight_class : Option Direction → Bool
  | some (Direction.Knight _) => true
  | _ => false

/-- Spec-side restatement for claim C5, following the words of the spec
(4.2 Pawn): forward ray in the advance direction of the side at distance 1
always, at distance 2 only from the start rank (row 1 for White, row 6 for
Black), and a
forward-diagonal ray at distance 1; everything else rejected. -/
def pawn_shape_spec (r c er ec : Nat) (turn : Player) : Bool :=
  match turn with
  | Player.White =>
    (ec == c && er == r + 1)
    || (ec == c && er == r + 2 && r == 1)
    || ((ec == c + 1 || ec + 1 == c) && er == r + 1)
  | Player.Black =>
    (ec == c && er + 1 == r)
    || (ec == c && er + 2 == r && r == 6)
    || ((ec == c + 1 || ec + 1 == c) && er + 1 == r)

/-- Claim C2, counterexample: the claim says two coinciding squares produce no
classification, but `get_direction` on the coinciding squares (3,3) and (3,3)
returns the classification `Right 0` rather than `none`. -/
theorem c2_same_square_counterexample :
    get_direction { row := 3, column := 3 } { row := 3, column := 3 } =
      some (Direction.Right 0) ∧
    get_direction { row := 3, column := 3 } { row := 3, column := 3 } ≠ none := by
  decide

/-- Claim C2, amended: for every pair of squares with the same row and the
same column, `get_direction` yields the classification `Right 0` (a
rightward ray of distance 0), not `none`. -/
theorem c2_same_square_amended (p q : Position)
    (hr : p.row = q.row) (hc : p.column = q.column) :
    get_direction p q = some (Direction.Right 0) := by
  obtain ⟨pr, pc⟩ := p
  obtain ⟨qr, qc⟩ := q
  simp only at hr hc
  subst hr
  subst hc
  simp [get_direction]

/-- Claim C2, witness for the amended theorem at the concrete square (0,0). -/
theorem c2_same_square_witness :
    get_direction { row := 0, column := 0 } { row := 0, column := 0 } =
      some (Direction.Right 0) :=
  c2_same_square_amended { row := 0, column := 0 } { row := 0, column := 0 } rfl rfl

/-- Claim C9: `get_direction` is total and performs no underflowing
subtraction: the variant whose two subtractions `rmax - rmin`, `cmax - cmin`
are checked (underflow modelled as `none`) never hits the underflow case and
agrees with `get_direction` on every pair of squares. -/
theorem c9_no_underflow (p q : Position) :
    get_direction_checked p q = some (get_direction p q) := by
  have h1 : checkedSub (max p.row q.row) (min p.row q.row) =
      some (max p.row q.row - min p.row q.row) := by
    simp [checkedSub, min_le_max]
  have h2 : checkedSub (max p.column q.column) (min p.column q.column) =
      some (max p.column q.column - min p.column q.column) := by
    simp [checkedSub, min_le_max]
  simp only [get_direction_checked, h1, h2, get_direction]

/-- Claim C9, witness at the concrete pair (0,0), (1,2). -/
theorem c9_no_underflow_witness :
    get_direction_checked { row := 0, column := 0 } { row := 1, column := 2 } =
      some (get_direction { row := 0, column := 0 } { row := 1, column := 2 }) :=
  c9_no_underflow { row := 0, column := 0 } { row := 1, column := 2 }

/-- Claim C8: for every pair of distinct in-range squares, `get_direction`
yields a knight-shape classification iff the unordered pair of absolute
coordinate deltas is exactly (1,2); and deltas that are neither equal, nor
axis-aligned, nor a knight offset yield no classification. -/
theorem c8_knight_deltas (pr pc qr qc : Fin 8)
    (h : ¬(pr.val = qr.val ∧ pc.val = qc.val)) :
    (is_knight_class
        (get_direction { row := pr.val, column := pc.val }
          { row := qr.val, column := qc.val }) = true ↔
      ((max pr.val qr.val - min pr.val qr.val = 1 ∧
          max pc.val qc.val - min pc.val qc.val = 2) ∨
        (max pr.val qr.val - min pr.val qr.val = 2 ∧
          max pc.val qc.val - min pc.val qc.val = 1))) ∧
    ((max pr.val qr.val - min pr.val qr.val ≠ max pc.val qc.val - min pc.val qc.val ∧
        max pr.val qr.val - min pr.val qr.val ≠ 0 ∧
        max pc.val qc.val - min pc.val qc.val ≠ 0 ∧
        ¬((max pr.val qr.val - min pr.val qr.val = 1 ∧
            max pc.val qc.val - min pc.val qc.val = 2) ∨
          (max pr.val qr.val - min pr.val qr.val = 2 ∧
            max pc.val qc.val - min pc.val qc.val = 1))) →
      get_direction { row := pr.val, column := pc.val }
        { row := qr.val, column := qc.val } = none) := by
  revert h
  revert pr pc qr qc
  decide

/-- Claim C8, witness: the distinct squares (0,0) and (1,2) (a knight
offset). -/
theorem c8_knight_deltas_witness :
    ¬((0 : Fin 8).val = (1 : Fin 8).val ∧ (0 : Fin 8).val = (2 : Fin 8).val) ∧
    (is_knight_class
        (get_direction { row := (0 : Fin 8).val, column := (0 : Fin 8).val }
          { row := (1 : Fin 8).val, column := (2 : Fin 8).val }) = true ↔
      ((max (0 : Fin 8).val (1 : Fin 8).val - min (0 : Fin 8).val (1 : Fin 8).val = 1 ∧
          max (0 : Fin 8).val (2 : Fin 8).val - min (0 : Fin 8).val (2 : Fin 8).val = 2) ∨
        (max (0 : Fin 8).val (1 : Fin 8).val - min (0 : Fin 8).val (1 : Fin 8).val = 2 ∧
          max (0 : Fin 8).val (2 : Fin 8).val - min (0 : Fin 8).val (2 : Fin 8).val = 1))) :=
  ⟨by decide, (c8_knight_deltas 0 0 1 2 (by decide)).1⟩

/-- Claim C5: for every in-range pawn square, destination and side, the
pawn shape-legality predicate `is_valid_pawn_move` accepts exactly the moves
described by the spec: a forward step of 1 always, a forward step of 2 only
from the start rank of the side (row 1 for White, row 6 for Black), and a
forward-diagonal step of 1 (regardless of occupancy); everything else is
rejected. -/
theorem c5_pawn_shape (r c er ec : Fin 8) (turn : Player) :
    is_valid_pawn_move { kind := Kind.Pawn, row := r.val, column := c.val }
        { row := er.val, column := ec.val } turn =
      pawn_shape_spec r.val c.val er.val ec.val turn := by
  cases turn <;> revert r c er ec <;> decide

/-- Every shape-legal move has a classification: each per-kind validator
requires `get_direction` to return `some`. -/
theorem valid_move_direction_isSome (piece : Piece) (pos : Position) (turn : Player)
    (h : is_valid_move piece pos turn = true) :
    (get_direction (Position.from_piece piece) pos).isSome = true := by
  cases hd : get_direction (Position.from_piece piece) pos with
  | some d => rfl
  | none =>
    exfalso
    cases hk : piece.kind <;>
      simp [is_valid_move, hk, is_valid_king_move, is_valid_queen_move,
        is_valid_knight_move, is_valid_bishop_move, is_valid_rook_move,
        is_valid_pawn_move, hd] at h

/-- The blocking loop never panics and computes the existential scan: it
returns `some` of `List.any` of the blocking predicate. -/
theorem block_loop_eq (piece : Piece) (turn : Player) (direction : Direction)
    (l : List Position) :
    block_loop piece turn direction l =
      some (l.any fun pos =>
        !(pos.row == piece.row && pos.column == piece.column)
        && is_valid_move piece pos turn
        && (match get_direction (Position.from_piece piece) pos with
            | none => false
            | some dir => same_ray_shorter dir direction)) := by
  induction l with
  | nil => simp [block_loop]
  | cons pos rest ih =>
    by_cases hsame : (pos.row == piece.row && pos.column == piece.column) = true
    · have hp : pos.row = piece.row ∧ pos.column = piece.column := by
        simpa [Bool.and_eq_true, beq_iff_eq] using hsame
      simp [block_loop, hsame, ih, hp.1, hp.2]
    · by_cases hval : is_valid_move piece pos turn = true
      · have hs := valid_move_direction_isSome piece pos turn hval
        cases hd : get_direction (Position.from_piece piece) pos with
        | none => rw [hd] at hs; simp at hs
        | some dir =>
          by_cases hb : same_ray_shorter dir direction = true
          · have hsame2 : ¬(pos.row = piece.row ∧ pos.column = piece.column) := by
              simpa [Bool.and_eq_true, beq_iff_eq] using hsame
            simp [block_loop, hsame, hval, hd, hb]
            exact Or.inl (not_and_or.mp hsame2)
          · simp [block_loop, hsame, hval, hd, hb, ih]
      · simp [block_loop, hsame, hval, ih]

/-- The blocking comparison of the source holds exactly when the two
classifications are rays of the same direction class with strictly smaller
distance for the first. -/
theorem same_ray_shorter_iff (d1 d2 : Direction) :
    same_ray_shorter d1 d2 = true ↔
      (dir_class d1 = dir_class d2 ∧ dir_class d1 ≠ RayClass.knightShape ∧
        ray_dist d1 < ray_dist d2) := by
  cases d1 <;> cases d2 <;> simp [same_ray_shorter, dir_class, ray_dist]

/-- A knight-shape target classification never registers a blocker. -/
theorem same_ray_shorter_knight (dir d : Direction)
    (hk : dir_class d = RayClass.knightShape) :
    same_ray_shorter dir d = false := by
  cases d <;> simp [dir_class] at hk
  cases dir <;> rfl

/-- Claim C3: when the classification of the destination is a ray `d`,
`is_piece_blocking` reports a blocker exactly when some other occupied square
(whites then blacks, excluding the square of the moving piece) is shape-legal
for the moving piece and classifies from the origin with the same direction
class and a strictly smaller distance; and when the classification is the
knight shape, it never reports a blocker. -/
theorem c3_blocking (gm : GameManager) (piece : Piece) (dest : Position)
    (d : Direction)
    (hd : get_direction (Position.from_piece piece) dest = some d) :
    (dir_class d ≠ RayClass.knightShape →
      (is_piece_blocking gm piece dest = some true ↔
        ∃ pos ∈ (gm.whites ++ gm.blacks).map Position.from_piece,
          ¬(pos.row = piece.row ∧ pos.column = piece.column) ∧
          is_valid_move piece pos gm.turn = true ∧
          ∃ d2, get_direction (Position.from_piece piece) pos = some d2 ∧
            dir_class d2 = dir_class d ∧ ray_dist d2 < ray_dist d)) ∧
    (dir_class d = RayClass.knightShape →
      is_piece_blocking gm piece dest = some false) := by
  have hbe : is_piece_blocking gm piece dest =
      some (((gm.whites ++ gm.blacks).map Position.from_piece).any fun pos =>
        !(pos.row == piece.row && pos.column == piece.column)
        && is_valid_move piece pos gm.turn
        && (match get_direction (Position.from_piece piece) pos with
            | none => false
            | some dir => same_ray_shorter dir d)) := by
    simp only [is_piece_blocking, hd]
    exact block_loop_eq piece gm.turn d _
  constructor
  · intro hk
    rw [hbe, Option.some_inj, List.any_eq_true]
    constructor
    · rintro ⟨pos, hmem, hpred⟩
      refine ⟨pos, hmem, ?_⟩
      cases hg : get_direction (Position.from_piece piece) pos with
      | none => rw [hg] at hpred; simp at hpred
      | some dir =>
        rw [hg] at hpred
        simp only [Bool.and_eq_true, Bool.not_eq_true', Bool.and_eq_false_iff,
          beq_eq_false_iff_ne, same_ray_shorter_iff] at hpred
        obtain ⟨⟨hne, hval⟩, hcls, _, hlt⟩ := hpred
        refine ⟨?_, hval, dir, rfl, hcls, hlt⟩
        rcases hne with h | h
        · exact fun hc => h hc.1
        · exact fun hc => h hc.2
    · rintro ⟨pos, hmem, hne, hval, d2, hg, hcls, hlt⟩
      refine ⟨pos, hmem, ?_⟩
      rw [hg]
      simp only [Bool.and_eq_true, Bool.not_eq_true', Bool.and_eq_false_iff,
        beq_eq_false_iff_ne, same_ray_shorter_iff]
      refine ⟨⟨?_, hval⟩, hcls, ?_, hlt⟩
      · by_cases h1 : pos.row = piece.row
        · exact Or.inr fun h2 => hne ⟨h1, h2⟩
        · exact Or.inl h1
      · rw [hcls]; exact hk
  · intro hk
    rw [hbe, Option.some_inj, List.any_eq_false]
    intro pos _
    cases hg : get_direction (Position.from_piece piece) pos with
    | none => simp [hg]
    | some dir => simp [hg, same_ray_shorter_knight dir d hk]

/-- Claim C3, witness: a white pawn at (2,4) moving to (4,4) with a white
pawn at (3,4) in between; the classification is the ray `Up 2`. -/
theorem c3_blocking_witness :
    is_piece_blocking
        { whites := [{ kind := Kind.Pawn, row := 3, column := 4 }],
          blacks := [], turn := Player.White }
        { kind := Kind.Pawn, row := 2, column := 4 }
        { row := 4, column := 4 } = some true ↔
      ∃ pos ∈ [({ row := 3, column := 4 } : Position)],
        ¬(pos.row = 2 ∧ pos.column = 4) ∧
        is_valid_move { kind := Kind.Pawn, row := 2, column := 4 } pos
          Player.White = true ∧
        ∃ d2, get_direction { row := 2, column := 4 } pos = some d2 ∧
          dir_class d2 = dir_class (Direction.Up 2) ∧
          ray_dist d2 < ray_dist (Direction.Up 2) :=
  (c3_blocking
    { whites := [{ kind := Kind.Pawn, row := 3, column := 4 }],
      blacks := [], turn := Player.White }
    { kind := Kind.Pawn, row := 2, column := 4 }
    { row := 4, column := 4 } (Direction.Up 2) (by decide)).1 (by decide)

/-- Claim C6: validation evaluates same-square, friendly-fire, shape
legality and obstruction in this fixed order and returns the outcome of the
first failing check; in particular a same-square request is always reported
`SamePosition`. -/
theorem c6_validation_order (gm : GameManager) (piece : Piece) (dest : Position) :
    ((piece.row = dest.row ∧ piece.column = dest.column) →
      gm_is_valid_move gm piece dest = some (some MoveErr.SamePosition)) ∧
    (¬(piece.row = dest.row ∧ piece.column = dest.column) →
      is_friendly_fire gm dest = true →
      gm_is_valid_move gm piece dest = some (some MoveErr.FriendlyFire)) ∧
    (¬(piece.row = dest.row ∧ piece.column = dest.column) →
      is_friendly_fire gm dest = false →
      is_valid_move piece dest gm.turn = false →
      gm_is_valid_move gm piece dest = some (some MoveErr.InvalidMove)) ∧
    (¬(piece.row = dest.row ∧ piece.column = dest.column) →
      is_friendly_fire gm dest = false →
      is_valid_move piece dest gm.turn = true →
      is_piece_blocking gm piece dest = some true →
      gm_is_valid_move gm piece dest = some (some MoveErr.PieceBlocking)) ∧
    (¬(piece.row = dest.row ∧ piece.column = dest.column) →
      is_friendly_fire gm dest = false →
      is_valid_move piece dest gm.turn = true →
      is_piece_blocking gm piece dest = some false →
      gm_is_valid_move gm piece dest = some none) := by
  refine ⟨?_, ?_, ?_, ?_, ?_⟩
  · intro h
    simp [gm_is_valid_move, h.1, h.2]
  · intro h hff
    have hb : ¬((piece.row == dest.row && piece.column == dest.column) = true) := by
      simpa [Bool.and_eq_true, beq_iff_eq] using h
    simp [gm_is_valid_move, hb, hff]
  · intro h hff hv
    have hb : ¬((piece.row == dest.row && piece.column == dest.column) = true) := by
      simpa [Bool.and_eq_true, beq_iff_eq] using h
    simp [gm_is_valid_move, hb, hff, hv]
  · intro h hff hv hbl
    have hb : ¬((piece.row == dest.row && piece.column == dest.column) = true) := by
      simpa [Bool.and_eq_true, beq_iff_eq] using h
    simp [gm_is_valid_move, hb, hff, hv, hbl]
  · intro h hff hv hbl
    have hb : ¬((piece.row == dest.row && piece.column == dest.column) = true) := by
      simpa [Bool.and_eq_true, beq_iff_eq] using h
    simp [gm_is_valid_move, hb, hff, hv, hbl]

/-- Claim C6, witness: a same-square request on a concrete board is reported
`SamePosition`. -/
theorem c6_validation_order_witness :
    gm_is_valid_move
        { whites := [{ kind := Kind.Pawn, row := 1, column := 2 }],
          blacks := [], turn := Player.White }
        { kind := Kind.Pawn, row := 1, column := 2 }
        { row := 1, column := 2 } = some (some MoveErr.SamePosition) :=
  (c6_validation_order
    { whites := [{ kind := Kind.Pawn, row := 1, column := 2 }],
      blacks := [], turn := Player.White }
    { kind := Kind.Pawn, row := 1, column := 2 }
    { row := 1, column := 2 }).1 ⟨rfl, rfl⟩

/-- Claim C7: on any non-Legal validation outcome, `move_piece` returns
exactly that error and leaves the whole board state (both collections and
the turn flag) unchanged. -/
theorem c7_rejected_leaves_state (gm : GameManager) (piece : Piece)
    (pos : Position) (err : MoveErr)
    (h : gm_is_valid_move gm piece pos = some (some err)) :
    move_piece gm piece pos = some (Except.error err, gm) := by
  simp [move_piece, h]

/-- Claim C7, witness: a same-square request on a concrete board is rejected
with `SamePosition` and the board is returned unchanged. -/
theorem c7_rejected_leaves_state_witness :
    move_piece
        { whites := [{ kind := Kind.Pawn, row := 1, column := 2 }],
          blacks := [], turn := Player.White }
        { kind := Kind.Pawn, row := 1, column := 2 }
        { row := 1, column := 2 } =
      some (Except.error MoveErr.SamePosition,
        { whites := [{ kind := Kind.Pawn, row := 1, column := 2 }],
          blacks := [], turn := Player.White }) :=
  c7_rejected_leaves_state
    { whites := [{ kind := Kind.Pawn, row := 1, column := 2 }],
      blacks := [], turn := Player.White }
    { kind := Kind.Pawn, row := 1, column := 2 }
    { row := 1, column := 2 } MoveErr.SamePosition (by decide)

/-- When the move is shape-legal, the obstruction walk never panics. -/
theorem is_piece_blocking_isSome (gm : GameManager) (piece : Piece)
    (dest : Position) (h : is_valid_move piece dest gm.turn = true) :
    (is_piece_blocking gm piece dest).isSome = true := by
  have hs := valid_move_direction_isSome piece dest gm.turn h
  cases hd : get_direction (Position.from_piece piece) dest with
  | none => rw [hd] at hs; simp at hs
  | some d =>
    simp only [is_piece_blocking, hd]
    rw [block_loop_eq]
    rfl

/-- Validation never panics: the obstruction walk is only reached after the
shape-legality check has passed. -/
theorem gm_is_valid_move_isSome (gm : GameManager) (piece : Piece)
    (dest : Position) : (gm_is_valid_move gm piece dest).isSome = true := by
  by_cases h1 : (piece.row == dest.row && piece.column == dest.column) = true
  · simp [gm_is_valid_move, h1]
  · by_cases h2 : is_friendly_fire gm dest = true
    · simp [gm_is_valid_move, h1, h2]
    · by_cases h3 : is_valid_move piece dest gm.turn = true
      · have hb := is_piece_blocking_isSome gm piece dest h3
        cases hbe : is_piece_blocking gm piece dest with
        | none => rw [hbe] at hb; simp at hb
        | some b => cases b <;> simp [gm_is_valid_move, h1, h2, h3, hbe]
      · rw [Bool.not_eq_true] at h3
        simp [gm_is_valid_move, h1, h2, h3]

/-- `move_piece` never panics. -/
theorem move_piece_isSome (gm : GameManager) (piece : Piece) (pos : Position) :
    (move_piece gm piece pos).isSome = true := by
  have h := gm_is_valid_move_isSome gm piece pos
  obtain ⟨w, b, t⟩ := gm
  cases he : gm_is_valid_move { whites := w, blacks := b, turn := t } piece pos with
  | none => rw [he] at h; simp at h
  | some r =>
    cases r with
    | none => cases t <;> simp [move_piece, he]
    | some err => simp [move_piece, he]

/-- The row loop of `move_suggestion` never panics. -/
theorem suggest_ri_loop_isSome (gm : GameManager) (piece : Piece) (ci : Nat)
    (l : List Nat) : (suggest_ri_loop gm piece ci l).isSome = true := by
  induction l with
  | nil => rfl
  | cons ri rest ih =>
    have h := gm_is_valid_move_isSome gm piece { row := ri, column := ci }
    cases he : gm_is_valid_move gm piece { row := ri, column := ci } with
    | none => rw [he] at h; simp at h
    | some r =>
      cases r with
      | none => simp [suggest_ri_loop, he, ih]
      | some err => simp [suggest_ri_loop, he, ih]

/-- The column loop of `move_suggestion` never panics. -/
theorem suggest_ci_loop_isSome (gm : GameManager) (piece : Piece)
    (l : List Nat) : ∀ acc, (suggest_ci_loop gm piece acc l).isSome = true := by
  induction l with
  | nil => intro acc; rfl
  | cons ci rest ih =>
    intro acc
    have h := suggest_ri_loop_isSome gm piece ci (List.range MAX_ROW)
    cases he : suggest_ri_loop gm piece ci (List.range MAX_ROW) with
    | none => rw [he] at h; simp at h
    | some newPos => simp [suggest_ci_loop, he, ih]

/-- Claim C10: whenever the shape-legality check passes, the classification
of the destination and of every considered blocker exists, so the
two `unwrap`s in the obstruction walk succeed; consequently validation,
`move_piece` and `move_suggestion` never panic (their embeddings, in which
`none` models a panic, always return `some`). -/
theorem c10_no_panic (gm : GameManager) (piece : Piece) (pos : Position) :
    (is_valid_move piece pos gm.turn = true →
      (get_direction (Position.from_piece piece) pos).isSome = true ∧
      (is_piece_blocking gm piece pos).isSome = true) ∧
    (gm_is_valid_move gm piece pos).isSome = true ∧
    (move_piece gm piece pos).isSome = true ∧
    (move_suggestion gm piece).isSome = true :=
  ⟨fun h => ⟨valid_move_direction_isSome piece pos gm.turn h,
      is_piece_blocking_isSome gm piece pos h⟩,
    gm_is_valid_move_isSome gm piece pos,
    move_piece_isSome gm piece pos,
    suggest_ci_loop_isSome gm piece (List.range MAX_COLUMN) []⟩

/-- Claim C10, witness: a concrete shape-legal move (white pawn (1,2) to
(2,2) on a one-pawn board) on which the guarded conjunct applies. -/
theorem c10_no_panic_witness :
    is_valid_move { kind := Kind.Pawn, row := 1, column := 2 }
        { row := 2, column := 2 } Player.White = true ∧
    ((get_direction
        (Position.from_piece { kind := Kind.Pawn, row := 1, column := 2 })
        { row := 2, column := 2 }).isSome = true ∧
      (is_piece_blocking
        { whites := [{ kind := Kind.Pawn, row := 1, column := 2 }],
          blacks := [], turn := Player.White }
        { kind := Kind.Pawn, row := 1, column := 2 }
        { row := 2, column := 2 }).isSome = true) :=
  ⟨by decide,
    (c10_no_panic
      { whites := [{ kind := Kind.Pawn, row := 1, column := 2 }],
        blacks := [], turn := Player.White }
      { kind := Kind.Pawn, row := 1, column := 2 }
      { row := 2, column := 2 }).1 (by decide)⟩

/-- Every output of the column loop for a Pawn passes the capture-only
filter: the filter is re-applied at the end of every column iteration, in
particular the last. -/
theorem suggest_ci_loop_keep (gm : GameManager) (piece : Piece)
    (hk : piece.kind = Kind.Pawn) (l : List Nat) :
    ∀ acc out : List Position,
      (∀ pos ∈ acc, pawn_keep gm piece pos = true) →
      suggest_ci_loop gm piece acc l = some out →
      ∀ pos ∈ out, pawn_keep gm piece pos = true := by
  induction l with
  | nil =>
    intro acc out hacc heq
    simp only [suggest_ci_loop, Option.some_inj] at heq
    subst heq
    exact hacc
  | cons ci rest ih =>
    intro acc out hacc heq
    simp only [suggest_ci_loop] at heq
    cases he : suggest_ri_loop gm piece ci (List.range MAX_ROW) with
    | none => rw [he] at heq; simp at heq
    | some newPos =>
      rw [he] at heq
      have hkb : (piece.kind == Kind.Pawn) = true := by simp [hk]
      rw [hkb] at heq
      simp only [if_true, pawn_filter] at heq
      refine ih _ out ?_ heq
      intro pos hpos
      exact (List.mem_filter.mp hpos).2

/-- Claim C4: `move_suggestion` for a Pawn retains an off-column (diagonal)
destination only if an opposing piece occupies it; and the two concrete
boards of the spec give exactly the stated suggestion sets: a first-mover
pawn at (1,2) alone yields (2,2) and (3,2), and with enemies at (2,1) and
(2,3) it yields (2,1), (2,2), (3,2) and (2,3). -/
theorem c4_pawn_suggestion :
    (∀ (gm : GameManager) (piece : Piece) (out : List Position),
        piece.kind = Kind.Pawn →
        move_suggestion gm piece = some out →
        ∀ pos ∈ out, pos.column ≠ piece.column →
          ∃ p ∈ (match gm.turn with
                  | Player.Black => gm.whites
                  | Player.White => gm.blacks),
            p.row = pos.row ∧ p.column = pos.column) ∧
    move_suggestion
        { whites := [{ kind := Kind.Pawn, row := 1, column := 2 }],
          blacks := [], turn := Player.White }
        { kind := Kind.Pawn, row := 1, column := 2 } =
      some [{ row := 2, column := 2 }, { row := 3, column := 2 }] ∧
    move_suggestion
        { whites := [{ kind := Kind.Pawn, row := 1, column := 2 }],
          blacks := [{ kind := Kind.Pawn, row := 2, column := 1 },
                     { kind := Kind.Pawn, row := 2, column := 3 }],
          turn := Player.White }
        { kind := Kind.Pawn, row := 1, column := 2 } =
      some [{ row := 2, column := 1 }, { row := 2, column := 2 },
            { row := 3, column := 2 }, { row := 2, column := 3 }] := by
  refine ⟨?_, by decide, by decide⟩
  intro gm piece out hk hsug pos hmem hcol
  simp only [move_suggestion] at hsug
  have hkeep := suggest_ci_loop_keep gm piece hk (List.range MAX_COLUMN) []
    out (by simp) hsug pos hmem
  simp only [pawn_keep, Bool.or_eq_true, beq_iff_eq] at hkeep
  rcases hkeep with h | h
  · exact absurd h hcol
  · simp only [List.any_eq_true, Bool.and_eq_true, beq_iff_eq] at h
    obtain ⟨p, hp, h1, h2⟩ := h
    exact ⟨p, hp, h1, h2⟩

/-- Claim C4, witness: the first (universally quantified) conjunct applied to
the concrete two-enemy board at the diagonal suggestion (2,1). -/
theorem c4_pawn_suggestion_witness :
    ∃ p ∈ [({ kind := Kind.Pawn, row := 2, column := 1 } : Piece),
           { kind := Kind.Pawn, row := 2, column := 3 }],
      p.row = 2 ∧ p.column = 1 :=
  c4_pawn_suggestion.1
    { whites := [{ kind := Kind.Pawn, row := 1, column := 2 }],
      blacks := [{ kind := Kind.Pawn, row := 2, column := 1 },
                 { kind := Kind.Pawn, row := 2, column := 3 }],
      turn := Player.White }
    { kind := Kind.Pawn, row := 1, column := 2 } _ rfl
    c4_pawn_suggestion.2.2 { row := 2, column := 1 } (by decide) (by decide)

/-- Claim C1, code bug: on the Legal move of the white pawn (1,2) to
(2,2) with a white rook at (0,0) also on the board, validation accepts the
move, yet `move_piece` relocates the rook (the first collection entry not
skipped by the loop condition) to (2,2) and leaves the pawn where it was,
contradicting the claim that exactly the moving piece is relocated. -/
theorem c1_move_piece_bug :
    gm_is_valid_move
        { whites := [{ kind := Kind.Rook, row := 0, column := 0 },
                     { kind := Kind.Pawn, row := 1, column := 2 }],
          blacks := [], turn := Player.White }
        { kind := Kind.Pawn, row := 1, column := 2 }
        { row := 2, column := 2 } = some none ∧
    move_piece
        { whites := [{ kind := Kind.Rook, row := 0, column := 0 },
                     { kind := Kind.Pawn, row := 1, column := 2 }],
          blacks := [], turn := Player.White }
        { kind := Kind.Pawn, row := 1, column := 2 }
        { row := 2, column := 2 } =
      some (Except.ok (),
        { whites := [{ kind := Kind.Rook, row := 2, column := 2 },
                     { kind := Kind.Pawn, row := 1, column := 2 }],
          blacks := [], turn := Player.White }) :=
  ⟨by decide, rfl⟩
